import Mathlib

/-!
Verification of the cushion-desktop notification subsystem.

This development embeds, in Lean, the cross-platform notification manager of
the repository (src-tauri/src/notifications/mod.rs and its platform backends
macos.rs / windows.rs / linux.rs, plus the command surface in
src-tauri/src/commands/notification.rs and the wiring in lib.rs) and proves
properties of the embedded definitions.

Conventions used throughout:
- Rust HashMap state is modelled as an association list where insertion
  prepends and lookup returns the first matching key, which reproduces the
  observable insert/lookup behaviour of the map.
- Fallible Rust functions returning Result are modelled as Except String.
- OS-native calls report their outcome through an explicit parameter (the
  value the native API would produce), so the embedded function is a pure
  function of that outcome.
- println! debug traces with no behavioural content are not modelled; the
  log lines the specification refers to (the rejected-URL warning, the
  dismissal message, the macOS completion-handler messages) are modelled as
  explicit events or returned log lists.
-/

namespace Cushion

/-! ## URL parsing model

The validator in notifications/mod.rs calls url::Url::parse (a WHATWG URL
parser) and inspects only the scheme and the host of the result.  The model
below embeds exactly that fragment of the parser: scheme recognition and
lowercasing, authority extraction after "//", userinfo and port stripping,
host lowercasing for special schemes, and the empty-host parse failure for
special schemes.  This is a model of a third-party library function, scoped
to the behaviour the repository code depends on. -/

/-- Characters allowed in a URL scheme after the first character
(ASCII alphanumerics and the three punctuation characters). -/
def isSchemeChar (c : Char) : Bool :=
  c.isAlpha || c.isDigit || c = '+' || c = '-' || c = '.'

/-- Split a character list at the first colon, returning the part before and
the part after; none when there is no colon. -/
def splitAtColon : List Char → Option (List Char × List Char)
  | [] => none
  | c :: rest =>
    if c = ':' then some ([], rest)
    else
      match splitAtColon rest with
      | some (a, b) => some (c :: a, b)
      | none => none

/-- A character that terminates the authority component of a URL. -/
def isAuthorityEnd (c : Char) : Bool :=
  c = '/' || c = '?' || c = '#'

/-- The authority component: everything after "//" up to the first slash,
question mark or hash. -/
def takeAuthority (l : List Char) : List Char :=
  l.takeWhile (fun c => !isAuthorityEnd c)

/-- Drop the userinfo part of an authority: the host starts after the last
at sign, when one is present. -/
def afterLastAt (l : List Char) : List Char :=
  (l.reverse.takeWhile (fun c => !(c = '@'))).reverse

/-- Drop the port from a host-and-port fragment.  A bracketed IPv6 host is
kept up to and including the closing bracket; otherwise the host ends at the
first colon. -/
def stripPort (l : List Char) : List Char :=
  match l with
  | '[' :: _ =>
    l.takeWhile (fun c => !(c = ']')) ++ (if l.contains ']' then [']'] else [])
  | _ => l.takeWhile (fun c => !(c = ':'))

/-- Schemes the WHATWG URL standard treats as special (their hosts are
domains: lowercased, and required to be non-empty). -/
def isSpecialScheme (s : String) : Bool :=
  s = "http" || s = "https" || s = "ws" || s = "wss" || s = "ftp" || s = "file"

/-- The fragment of a parsed URL the repository code inspects. -/
structure ParsedUrl where
  scheme : String
  host : Option String
deriving DecidableEq

/-- Model of url::Url::parse restricted to scheme and host extraction.
Parsing fails when there is no colon, when the scheme is malformed, or when
a special scheme has an empty host. -/
def urlParse (s : String) : Option ParsedUrl :=
  match splitAtColon s.data with
  | none => none
  | some (schemeChars, rest) =>
    match schemeChars with
    | [] => none
    | c :: cs =>
      if c.isAlpha && cs.all isSchemeChar then
        let scheme := String.mk ((c :: cs).map Char.toLower)
        match rest with
        | '/' :: '/' :: afterSlashes =>
          let hostChars := stripPort (afterLastAt (takeAuthority afterSlashes))
          if hostChars = [] then
            if isSpecialScheme scheme then none
            else some ⟨scheme, none⟩
          else
            some ⟨scheme,
              some (if isSpecialScheme scheme then
                      String.mk (hostChars.map Char.toLower)
                    else String.mk hostChars)⟩
        | _ => some ⟨scheme, none⟩
      else none

/-! ## The deep-link URL validator

Embeds is_valid_notification_url from notifications/mod.rs, keeping the
structure of the Rust if-chain with early returns. -/

/-- Validate that a URL is safe to emit as a deep link
(notifications/mod.rs, is_valid_notification_url). -/
def is_valid_notification_url (url : String) : Bool :=
  match urlParse url with
  | some parsed =>
    if parsed.scheme == "cushion" || parsed.scheme == "cushion-dev" then true
    else if parsed.scheme == "https" then
      match parsed.host with
      | some host => host == "app.cushion.so" || host.endsWith ".cushion.so"
      | none => false
    else false
  | none => false

/-- The allow-list as the specification words it: custom schemes, or https
with host equal to the apex domain cushion.so or any of its subdomains.
This definition follows the claim text, to be compared with the embedded
validator. -/
def specAllowedUrl (url : String) : Bool :=
  match urlParse url with
  | some parsed =>
    parsed.scheme == "cushion" || parsed.scheme == "cushion-dev" ||
      (parsed.scheme == "https" &&
        match parsed.host with
        | some host => host == "cushion.so" || host.endsWith ".cushion.so"
        | none => false)
  | none => false

/-- The allow-list the code actually implements: custom schemes, or https
with host app.cushion.so or any host ending in ".cushion.so" (strict
subdomains of cushion.so; the apex domain itself is rejected). -/
def amendedAllowedUrl (url : String) : Bool :=
  match urlParse url with
  | some parsed =>
    parsed.scheme == "cushion" || parsed.scheme == "cushion-dev" ||
      (parsed.scheme == "https" &&
        match parsed.host with
        | some host => host == "app.cushion.so" || host.endsWith ".cushion.so"
        | none => false)
  | none => false

/-! ## Click events and the dispatch model

Embeds the data model of notifications/mod.rs: ClickAction, the click
record, the manager state (callback slot and metadata map), and the default
click handler installed by notifications::setup.  Events observable by the
host (emitted deep links, window operations, the warning logs) are
reified as an Emitted inductive. -/

/-- The interaction kind of a notification click (ClickAction in mod.rs). -/
inductive ClickAction
  | body
  | dismiss
  | button (name : String)
deriving DecidableEq

/-- Data about a notification click (NotificationClick in mod.rs). -/
structure NotificationClick where
  id : String
  url : Option String
  action : ClickAction
deriving DecidableEq

/-- Observable effects of the dispatch callback: a deep-link event emitted
to the host, the three window operations, and the log lines the dispatcher
produces. -/
inductive Emitted
  | deepLink (url : String)
  | windowShow
  | windowFocus
  | windowUnminimize
  | log (msg : String)
deriving DecidableEq

/-- The manager's shared state (NotificationManager in mod.rs): the callback
slot and the id-to-url metadata map.  The AppHandle field carries no state
relevant to the claims and is omitted. -/
structure NotificationManager where
  callback : Option (NotificationClick → List Emitted)
  metadata : List (String × String)

/-- A freshly constructed manager (NotificationManager::init before any
callback or metadata is installed): empty callback slot, empty map. -/
def NotificationManager.initState : NotificationManager :=
  ⟨none, []⟩

/-- NotificationManager::set_callback: installs or replaces the callback
(last write wins). -/
def NotificationManager.set_callback (m : NotificationManager)
    (cb : NotificationClick → List Emitted) : NotificationManager :=
  ⟨some cb, m.metadata⟩

/-- NotificationManager::store_metadata: HashMap::insert of id -> url,
modelled by prepending (lookup returns the newest binding). -/
def NotificationManager.store_metadata (m : NotificationManager)
    (id url : String) : NotificationManager :=
  ⟨m.callback, (id, url) :: m.metadata⟩

/-- NotificationManager::get_metadata: HashMap::get by id, cloned. -/
def NotificationManager.get_metadata (m : NotificationManager)
    (id : String) : Option String :=
  (m.metadata.find? (fun p => p.1 == id)).map (fun p => p.2)

/-- NotificationManager::handle_click: invokes the registered callback on
the click, returning its emitted events; with no callback registered the
click is swallowed and nothing is emitted. -/
def NotificationManager.handle_click (m : NotificationManager)
    (click : NotificationClick) : List Emitted :=
  match m.callback with
  | some cb => cb click
  | none => []

/-- Operations the manager performs during show_notification, in order:
a metadata store (when a URL is supplied) followed by the backend's native
render call. -/
inductive ManagerOp
  | storeMetadata (id url : String)
  | backendRender (id title body : String)
deriving DecidableEq

/-- NotificationManager::show_notification: records id -> url in the
metadata map when a URL is supplied, then delegates to the active backend's
native render call.  The backend outcome is the backendResult parameter;
the returned operation list records the order in which the two effects are
issued. -/
def NotificationManager.show_notification (m : NotificationManager)
    (id title body : String) (url : Option String)
    (backendResult : Except String Unit) :
    NotificationManager × Except String Unit × List ManagerOp :=
  match url with
  | some u =>
    (m.store_metadata id u, backendResult,
      [ManagerOp.storeMetadata id u, ManagerOp.backendRender id title body])
  | none =>
    (m, backendResult, [ManagerOp.backendRender id title body])

/-- The default click handler that notifications::setup registers
(the closure in mod.rs setup): on a body tap or a button press it emits a
deep-link event when the stored URL passes the validator, logs a warning
when the URL fails it, and then shows, focuses and unminimizes the main
window when that window exists; on a dismissal it only logs. -/
def defaultClickHandler (hasMainWindow : Bool)
    (click : NotificationClick) : List Emitted :=
  match click.action with
  | ClickAction.body | ClickAction.button _ =>
    (match click.url with
     | some url =>
       if is_valid_notification_url url then [Emitted.deepLink url]
       else [Emitted.log ("🚫 Rejected invalid notification URL: " ++ url)]
     | none => []) ++
    (if hasMainWindow then
      [Emitted.windowShow, Emitted.windowFocus, Emitted.windowUnminimize]
     else [])
  | ClickAction.dismiss => [Emitted.log "Notification dismissed"]

/-- notifications::setup: constructs the manager and installs the default
click handler in the callback slot (the global-slot registration is
modelled separately below). -/
def notifications_setup (hasMainWindow : Bool) : NotificationManager :=
  NotificationManager.initState.set_callback (defaultClickHandler hasMainWindow)

/-- The notification-click dispatch handlers installed during application
setup (lib.rs): exactly the default handler registered through
notifications::setup.  The function
commands::notification::setup_notification_click_handler exists in the
source but is never called, so the on_action closure it would register is
never installed and reacts to no click. -/
def registeredClickHandlers (hasMainWindow : Bool) :
    List (NotificationClick → List Emitted) :=
  [defaultClickHandler hasMainWindow]

/-- The URL rewrite performed by the dead on_action closure in
commands/notification.rs: https://app.cushion.so/ and http://localhost:3000/
URLs are rewritten to the cushion scheme, cushion URLs pass through, and
anything else is wrapped into the cushion scheme after trimming leading
slashes.  Defined for documentation of that unreachable path; it performs no
allow-list validation. -/
def to_deep_link (url : String) : String :=
  if url.startsWith "https://app.cushion.so/" then
    url.replace "https://app.cushion.so/" "cushion://"
  else if url.startsWith "http://localhost:3000/" then
    url.replace "http://localhost:3000/" "cushion://"
  else if url.startsWith "cushion://" then url
  else "cushion://" ++ url.dropWhile (fun c => c = '/')

/-! ## The macOS click path

Embeds the delegate method did_receive_response of notifications/macos.rs:
the native action identifier is mapped to the three-way ClickAction, the
URL is resolved from the manager's metadata (none when the module-level
manager reference is unset or the id is unknown), and the resulting click
is handed to NotificationManager::handle_click. -/

/-- Mapping of the native UNNotification action identifier to ClickAction
(macos.rs did_receive_response). -/
def actionFromIdentifier (actionIdentifier : String) : ClickAction :=
  if actionIdentifier == "com.apple.UNNotificationDefaultActionIdentifier" then
    ClickAction.body
  else if actionIdentifier == "com.apple.UNNotificationDismissActionIdentifier" then
    ClickAction.dismiss
  else ClickAction.button actionIdentifier

/-- The macOS delegate's did_receive_response: builds the click record
(resolving the URL from metadata) and dispatches it through handle_click;
returns the click and the events the dispatch emitted. -/
def did_receive_response (mgr : Option NotificationManager)
    (identifier actionIdentifier : String) :
    NotificationClick × List Emitted :=
  let action := actionFromIdentifier actionIdentifier
  let url :=
    match mgr with
    | some m => m.get_metadata identifier
    | none => none
  let click : NotificationClick := ⟨identifier, url, action⟩
  (click,
    match mgr with
    | some m => m.handle_click click
    | none => [])

/-! ## Platform backends

Embeds the three show_notification backends.  Each native call's outcome is
an explicit parameter.  The macOS backend submits the request with an
asynchronous completion handler that only logs, and returns Ok
unconditionally; the Windows and Linux backends map the native error into
the returned Result.  The manager argument of the Windows and Linux
backends models their NotificationManager::get() lookup. -/

/-- macos::show_notification: builds the UNNotificationRequest and submits
it with a completion handler; the handler only logs the outcome, and the
function returns Ok(()) regardless.  The url parameter is unused in the
source (named with an underscore there).  Returns the result together with
the log lines the completion handler produces for the given native
outcome. -/
def macos_show_notification (id title body : String) (url : Option String)
    (nativeError : Option String) : Except String Unit × List String :=
  (Except.ok (),
    match nativeError with
    | some e => ["❌ Failed to show macOS notification: " ++ e]
    | none => ["✅ macOS notification shown successfully"])

/-- windows::show_notification: fails with a not-initialized error when the
manager singleton is absent, and otherwise maps a native Toast::show error
into the returned Result. -/
def windows_show_notification (mgr : Option Nat) (id title body : String)
    (url : Option String) (nativeResult : Except String Unit) :
    Except String Unit :=
  match mgr with
  | none => Except.error "Notification manager not initialized"
  | some _ =>
    match nativeResult with
    | Except.error e =>
      Except.error ("Failed to show Windows notification: " ++ e)
    | Except.ok _ => Except.ok ()

/-- linux::show_notification: fails with a not-initialized error when the
manager singleton is absent, and otherwise maps a native show error into
the returned Result (click callbacks are not wired on Linux). -/
def linux_show_notification (mgr : Option Nat) (id title body : String)
    (url : Option String) (nativeResult : Except String Unit) :
    Except String Unit :=
  match mgr with
  | none => Except.error "Notification manager not initialized"
  | some _ =>
    match nativeResult with
    | Except.error e =>
      Except.error ("Failed to show Linux notification: " ++ e)
    | Except.ok _ => Except.ok ()

/-! ## The process-wide singleton slot

Embeds the OnceLock global NOTIFICATION_MANAGER and
NotificationManager::init / NotificationManager::get.  Manager instances
are identified by allocation order (a Nat counter models Arc::new).  The
platform setup performed inside init is included, because on macOS it
registers the Objective-C delegate class CushionNotificationDelegate:
objc ClassDecl::new returns None when a class of that name is already
registered, and the source calls expect on it, which panics.  A panic is
modelled as Except.error carrying the expect message. -/

/-- The build-target platform; exactly one backend is active per build. -/
inductive Platform
  | macos
  | windows
  | linux
deriving DecidableEq

/-- State of the OnceLock global slot plus the fresh-instance counter. -/
structure GlobalSlot where
  slot : Option Nat
  next : Nat
deriving DecidableEq

/-- The slot before any initialization. -/
def GlobalSlot.initial : GlobalSlot :=
  ⟨none, 0⟩

/-- OnceLock::set with its Result discarded by .ok(): the first stored
value is kept, a second set leaves the slot unchanged. -/
def onceLockSet (g : GlobalSlot) (v : Nat) : GlobalSlot :=
  match g.slot with
  | some _ => g
  | none => ⟨some v, g.next⟩

/-- Platform-specific setup run inside NotificationManager::init, tracked
through the list of registered Objective-C class names: on macOS the
delegate class is created and registered, and a second registration panics
through expect; Windows and Linux setup bodies only log. -/
def platform_setup (p : Platform) (classes : List String) :
    Except String (List String) :=
  match p with
  | Platform.macos =>
    if "CushionNotificationDelegate" ∈ classes then
      Except.error "Failed to create CushionNotificationDelegate class"
    else Except.ok ("CushionNotificationDelegate" :: classes)
  | Platform.windows => Except.ok classes
  | Platform.linux => Except.ok classes

/-- NotificationManager::init: allocates a fresh manager, runs the platform
setup, stores the manager into the OnceLock (discarding failure) and
returns the fresh instance.  An error value models the panic of the macOS
delegate re-registration. -/
def NotificationManager.init (p : Platform) (g : GlobalSlot)
    (classes : List String) :
    Except String (GlobalSlot × Nat × List String) :=
  let m := g.next
  match platform_setup p classes with
  | Except.error e => Except.error e
  | Except.ok classes' =>
    Except.ok (onceLockSet ⟨g.slot, g.next + 1⟩ m, m, classes')

/-- NotificationManager::get: reads the OnceLock, cloning the Arc. -/
def NotificationManager.get (g : GlobalSlot) : Option Nat :=
  g.slot

/-- An operation against the singleton slot: an init call or a get call. -/
inductive SlotOp
  | opInit
  | opGet
deriving DecidableEq

/-- Run a sequence of slot operations from a given state, collecting the
result of every get call.  An init panic aborts the run (no further
results). -/
def runSlot (p : Platform) :
    List SlotOp → GlobalSlot × List String →
    (GlobalSlot × List String) × List (Option Nat)
  | [], st => (st, [])
  | SlotOp.opGet :: rest, st =>
    let out := runSlot p rest st
    (out.1, NotificationManager.get st.1 :: out.2)
  | SlotOp.opInit :: rest, st =>
    match NotificationManager.init p st.1 st.2 with
    | Except.ok out => runSlot p rest (out.1, out.2.2)
    | Except.error _ => (st, [])

/-! ## Lock traces of the manager's methods

The manager state is guarded by two std Mutexes: the callback slot and the
metadata map.  Each method's sequence of lock acquisitions, releases and
the callback invocation is recorded as a trace.  In handle_click the
MutexGuard temporary created by self.callback.lock().unwrap() in the if-let
scrutinee lives until the end of the if-let block (Rust temporary-lifetime
rules), so the callback runs while the callback lock is held. -/

/-- The two Mutexes guarding the manager's shared state. -/
inductive LockId
  | callbackLock
  | metadataLock
deriving DecidableEq

/-- A lock-relevant event in a method's execution. -/
inductive LockEvent
  | acquire (l : LockId)
  | release (l : LockId)
  | invokeCallback
deriving DecidableEq

/-- Lock trace of NotificationManager::handle_click: the callback Mutex is
locked in the if-let scrutinee and its guard is dropped only at the end of
the if-let block, after the callback invocation. -/
def handle_click_lockTrace (callbackRegistered : Bool) : List LockEvent :=
  if callbackRegistered then
    [LockEvent.acquire LockId.callbackLock, LockEvent.invokeCallback,
     LockEvent.release LockId.callbackLock]
  else
    [LockEvent.acquire LockId.callbackLock,
     LockEvent.release LockId.callbackLock]

/-- Lock trace of NotificationManager::set_callback. -/
def set_callback_lockTrace : List LockEvent :=
  [LockEvent.acquire LockId.callbackLock,
   LockEvent.release LockId.callbackLock]

/-- Lock trace of NotificationManager::get_metadata. -/
def get_metadata_lockTrace : List LockEvent :=
  [LockEvent.acquire LockId.metadataLock,
   LockEvent.release LockId.metadataLock]

/-- Lock trace of NotificationManager::store_metadata. -/
def store_metadata_lockTrace : List LockEvent :=
  [LockEvent.acquire LockId.metadataLock,
   LockEvent.release LockId.metadataLock]

/-- Lock trace of NotificationManager::show_notification: a metadata store
when a URL is supplied, then the backend render (which takes neither
manager lock). -/
def show_notification_lockTrace (hasUrl : Bool) : List LockEvent :=
  if hasUrl then store_metadata_lockTrace else []

/-- The set of locks held at the moment the callback is invoked in a trace:
none when the trace never invokes the callback. -/
def locksHeldAtCallback : List LockEvent → List LockId → Option (List LockId)
  | [], _ => none
  | LockEvent.invokeCallback :: _, held => some held
  | LockEvent.acquire l :: rest, held => locksHeldAtCallback rest (l :: held)
  | LockEvent.release l :: rest, held =>
    locksHeldAtCallback rest (held.erase l)

/-- A re-entrant call with the given lock trace deadlocks when it tries to
acquire a lock already held by the enclosing dispatch. -/
def reentrantDeadlocks (inner : List LockEvent) (held : List LockId) : Bool :=
  inner.any (fun e =>
    match e with
    | LockEvent.acquire l => held.contains l
    | _ => false)

/-! ## Identifier generation in the front-end command

Embeds the id generation of commands/notification.rs show_notification:
format!("cushion-notif-\x7b\x7d", chrono::Utc::now().timestamp_millis()).
The i64 millisecond timestamp an invocation observes is the function's
argument; formatting an integer in decimal is embedded by an executable
decimal converter. -/

/-- Decimal digits of n, least significant first, computed with explicit
fuel (64 suffices for every i64 magnitude). -/
def toDigitsRevFuel : Nat → Nat → List Nat
  | 0, _ => []
  | fuel + 1, n =>
    if n = 0 then [] else n % 10 :: toDigitsRevFuel fuel (n / 10)

/-- Value of a least-significant-first digit list. -/
def fromDigitsRev : List Nat → Nat
  | [] => 0
  | d :: ds => d + 10 * fromDigitsRev ds

/-- Decimal character list of a natural number, most significant first. -/
def decimalChars (n : Nat) : List Char :=
  if n = 0 then ['0']
  else ((toDigitsRevFuel 64 n).reverse).map Nat.digitChar

/-- Decimal string of a natural number. -/
def decimalString (n : Nat) : String :=
  String.mk (decimalChars n)

/-- Decimal string of an i64 value (Display for i64): a minus sign followed
by the magnitude for negative values. -/
def intDecimal (i : Int) : String :=
  if i < 0 then "-" ++ decimalString i.natAbs else decimalString i.toNat

/-- The identifier the command generates for one invocation, as a function
of the millisecond timestamp that invocation observes. -/
def genNotificationId (nowMillis : Int) : String :=
  "cushion-notif-" ++ intDecimal nowMillis

/-- The identifiers generated by a sequence of command invocations whose
observed timestamps are the given list. -/
def commandIds (clocks : List Int) : List String :=
  clocks.map genNotificationId

/-! ## Helper lemmas -/

/-- Correctness of the fuelled digit converter: reading the digits back
yields the number, for any number below the fuel's range. -/
theorem fromDigitsRev_toDigitsRevFuel (fuel : Nat) :
    ∀ n : Nat, n < 10 ^ fuel → fromDigitsRev (toDigitsRevFuel fuel n) = n := by
  induction fuel with
  | zero =>
    intro n h
    simp only [pow_zero, Nat.lt_one_iff] at h
    simp [toDigitsRevFuel, h, fromDigitsRev]
  | succ fuel ih =>
    intro n h
    by_cases hn : n = 0
    · simp [toDigitsRevFuel, hn, fromDigitsRev]
    · have hdiv : n / 10 < 10 ^ fuel := by
        rw [Nat.div_lt_iff_lt_mul (by norm_num)]
        calc n < 10 ^ (fuel + 1) := h
        _ = 10 ^ fuel * 10 := by rw [pow_succ]
      simp only [toDigitsRevFuel, hn, if_false, fromDigitsRev, ih _ hdiv]
      omega

/-- Every digit the fuelled converter produces is below ten. -/
theorem toDigitsRevFuel_lt_ten (fuel : Nat) :
    ∀ n : Nat, ∀ d ∈ toDigitsRevFuel fuel n, d < 10 := by
  induction fuel with
  | zero => intro n d hd; simp [toDigitsRevFuel] at hd
  | succ fuel ih =>
    intro n d hd
    by_cases hn : n = 0
    · simp [toDigitsRevFuel, hn] at hd
    · simp only [toDigitsRevFuel, hn, if_false, List.mem_cons] at hd
      rcases hd with h | h
      · omega
      · exact ih _ d h

/-- Nat.digitChar is injective on digits below ten. -/
theorem digitChar_inj_lt {d₁ d₂ : Nat} (h₁ : d₁ < 10) (h₂ : d₂ < 10)
    (h : Nat.digitChar d₁ = Nat.digitChar d₂) : d₁ = d₂ := by
  interval_cases d₁ <;> interval_cases d₂ <;> revert h <;> decide

/-- Mapping Nat.digitChar over digit lists is injective. -/
theorem map_digitChar_inj :
    ∀ l₁ l₂ : List Nat, (∀ d ∈ l₁, d < 10) → (∀ d ∈ l₂, d < 10) →
      l₁.map Nat.digitChar = l₂.map Nat.digitChar → l₁ = l₂ := by
  intro l₁
  induction l₁ with
  | nil =>
    intro l₂ _ _ h
    cases l₂ with
    | nil => rfl
    | cons e es => simp at h
  | cons d ds ih =>
    intro l₂ hb₁ hb₂ h
    cases l₂ with
    | nil => simp at h
    | cons e es =>
      simp only [List.map_cons, List.cons.injEq] at h
      obtain ⟨hde, htl⟩ := h
      have hd : d = e :=
        digitChar_inj_lt (hb₁ d (by simp)) (hb₂ e (by simp)) hde
      subst hd
      have : ds = es :=
        ih es (fun x hx => hb₁ x (by simp [hx]))
          (fun x hx => hb₂ x (by simp [hx])) htl
      rw [this]

/-- The decimal character list never contains a minus sign. -/
theorem minus_not_mem_decimalChars (n : Nat) : '-' ∉ decimalChars n := by
  unfold decimalChars
  by_cases hn : n = 0
  · simp [hn]
  · simp only [hn, if_false, List.mem_map, not_exists, not_and]
    intro d hd
    have hlt : d < 10 := toDigitsRevFuel_lt_ten 64 n d (List.mem_reverse.mp hd)
    interval_cases d <;> decide

/-- The decimal character list is never empty. -/
theorem decimalChars_ne_nil (n : Nat) : decimalChars n ≠ [] := by
  unfold decimalChars
  by_cases hn : n = 0
  · simp [hn]
  · have : toDigitsRevFuel 64 n = n % 10 :: toDigitsRevFuel 63 (n / 10) := by
      show toDigitsRevFuel (63 + 1) n = _
      simp [toDigitsRevFuel, hn]
    simp [hn, this]

/-- The decimal character list determines the number, within i64 range. -/
theorem decimalChars_inj {m n : Nat} (hm : m < 10 ^ 64) (hn : n < 10 ^ 64)
    (h : decimalChars m = decimalChars n) : m = n := by
  have key : ∀ k : Nat, k < 10 ^ 64 → k ≠ 0 →
      decimalChars k = (toDigitsRevFuel 64 k).reverse.map Nat.digitChar := by
    intro k _ hk
    simp [decimalChars, hk]
  by_cases hm0 : m = 0 <;> by_cases hn0 : n = 0
  · rw [hm0, hn0]
  · rw [hm0] at h
    rw [key n hn hn0] at h
    simp only [decimalChars, if_pos rfl] at h
    have h0 : ('0' : Char) = Nat.digitChar 0 := by decide
    have : [(0 : Nat)] = (toDigitsRevFuel 64 n).reverse := by
      apply map_digitChar_inj
      · intro d hd; simp at hd; omega
      · intro d hd
        exact toDigitsRevFuel_lt_ten 64 n d (List.mem_reverse.mp hd)
      · rw [List.map_cons, List.map_nil, ← h0]
        simpa using h
    have hrev : toDigitsRevFuel 64 n = [0] := by
      have := congrArg List.reverse this
      simpa using this.symm
    have := fromDigitsRev_toDigitsRevFuel 64 n hn
    rw [hrev] at this
    simp [fromDigitsRev] at this
    exact absurd this.symm hn0
  · rw [hn0] at h
    rw [key m hm hm0] at h
    simp only [decimalChars, if_pos rfl] at h
    have h0 : ('0' : Char) = Nat.digitChar 0 := by decide
    have : (toDigitsRevFuel 64 m).reverse = [(0 : Nat)] := by
      apply map_digitChar_inj
      · intro d hd
        exact toDigitsRevFuel_lt_ten 64 m d (List.mem_reverse.mp hd)
      · intro d hd; simp at hd; omega
      · rw [List.map_cons, List.map_nil, ← h0]
        simpa using h
    have hrev : toDigitsRevFuel 64 m = [0] := by
      have := congrArg List.reverse this
      simpa using this
    have := fromDigitsRev_toDigitsRevFuel 64 m hm
    rw [hrev] at this
    simp [fromDigitsRev] at this
    exact absurd this.symm hm0
  · rw [key m hm hm0, key n hn hn0] at h
    have hdig : (toDigitsRevFuel 64 m).reverse = (toDigitsRevFuel 64 n).reverse := by
      apply map_digitChar_inj _ _ _ _ h
      · intro d hd
        exact toDigitsRevFuel_lt_ten 64 m d (List.mem_reverse.mp hd)
      · intro d hd
        exact toDigitsRevFuel_lt_ten 64 n d (List.mem_reverse.mp hd)
    have : toDigitsRevFuel 64 m = toDigitsRevFuel 64 n :=
      List.reverse_injective hdig
    rw [← fromDigitsRev_toDigitsRevFuel 64 m hm,
        ← fromDigitsRev_toDigitsRevFuel 64 n hn, this]

/-- The i64 decimal rendering determines the value, within i64 range. -/
theorem intDecimal_inj {i j : Int} (hi : i.natAbs ≤ 2 ^ 63)
    (hj : j.natAbs ≤ 2 ^ 63) (h : intDecimal i = intDecimal j) : i = j := by
  have hrange : (2 : Nat) ^ 63 < 10 ^ 64 := by norm_num
  have hi' : i.natAbs < 10 ^ 64 := lt_of_le_of_lt hi hrange
  have hj' : j.natAbs < 10 ^ 64 := lt_of_le_of_lt hj hrange
  unfold intDecimal at h
  by_cases hi0 : i < 0 <;> by_cases hj0 : j < 0
  · simp only [hi0, hj0, if_pos] at h
    have hdata := congrArg String.data h
    have hcons : ('-' :: decimalChars i.natAbs) = '-' :: decimalChars j.natAbs := hdata
    have := decimalChars_inj hi' hj' (List.cons_injective.eq_iff.mp hcons)
    omega
  · simp only [hi0, hj0, if_pos, if_neg, not_false_iff] at h
    have hdata := congrArg String.data h
    have hcons : ('-' :: decimalChars i.natAbs) = decimalChars j.toNat := hdata
    exact absurd (hcons ▸ List.mem_cons_self '-' _)
      (minus_not_mem_decimalChars j.toNat)
  · simp only [hi0, hj0, if_pos, if_neg, not_false_iff] at h
    have hdata := congrArg String.data h
    have hcons : decimalChars i.toNat = '-' :: decimalChars j.natAbs := hdata
    exact absurd (hcons ▸ List.mem_cons_self '-' _)
      (minus_not_mem_decimalChars i.toNat)
  · simp only [hi0, hj0, if_neg, not_false_iff] at h
    have hdata := congrArg String.data h
    have hin : i.toNat < 10 ^ 64 := by omega
    have hjn : j.toNat < 10 ^ 64 := by omega
    have := decimalChars_inj hin hjn hdata
    omega

/-- The generated identifier determines the observed timestamp, within i64
range. -/
theorem genNotificationId_inj {i j : Int} (hi : i.natAbs ≤ 2 ^ 63)
    (hj : j.natAbs ≤ 2 ^ 63) (h : genNotificationId i = genNotificationId j) :
    i = j := by
  unfold genNotificationId at h
  have hdata := congrArg String.data h
  have htail : (intDecimal i).data = (intDecimal j).data :=
    List.append_cancel_left hdata
  exact intDecimal_inj hi hj (by
    apply congrArg String.mk at htail
    simpa using htail)

/-! ## Claim theorems -/

/-- Claim C1, counterexample: the claim describes the https branch of the
allow-list as accepting the apex domain and its subdomains, but the
validator rejects the apex domain itself: https://cushion.so/y fails
is_valid_notification_url while the claim's characterization accepts it. -/
theorem allowlist_rejects_apex_domain :
    is_valid_notification_url "https://cushion.so/y" = false ∧
    specAllowedUrl "https://cushion.so/y" = true := by
  decide

/-- Claim C1, amended: the validator accepts exactly the URLs whose scheme
is cushion or cushion-dev, or whose scheme is https with host
app.cushion.so or any host ending in ".cushion.so" (strict subdomains; the
apex domain is rejected); the four example URLs behave as the claim
states. -/
theorem allowlist_characterization :
    (∀ u, is_valid_notification_url u = amendedAllowedUrl u) ∧
    is_valid_notification_url "cushion://x" = true ∧
    is_valid_notification_url "https://app.cushion.so/y" = true ∧
    is_valid_notification_url "https://evil.com/y" = false ∧
    is_valid_notification_url "javascript:alert(1)" = false := by
  refine ⟨?_, by decide, by decide, by decide, by decide⟩
  intro u
  unfold is_valid_notification_url amendedAllowedUrl
  cases urlParse u with
  | none => rfl
  | some p =>
    cases p.host with
    | none =>
      by_cases h1 : p.scheme = "cushion" <;>
        by_cases h2 : p.scheme = "cushion-dev" <;>
          by_cases h3 : p.scheme = "https" <;>
            simp [h1, h2, h3]
    | some host =>
      by_cases h1 : p.scheme = "cushion" <;>
        by_cases h2 : p.scheme = "cushion-dev" <;>
          by_cases h3 : p.scheme = "https" <;>
            simp [h1, h2, h3]

/-- Claim C4, counterexample: the macOS backend reports success even when
the native call fails.  With the native request erroring, show returns
Ok(()) to its caller; the error only appears in the asynchronous
completion-handler log. -/
theorem macos_show_ok_despite_native_error :
    (macos_show_notification "n1" "title" "body" none
        (some "Notifications are not allowed for this application")).1 =
      Except.ok () ∧
    (macos_show_notification "n1" "title" "body" none
        (some "Notifications are not allowed for this application")).2 =
      ["❌ Failed to show macOS notification: " ++
        "Notifications are not allowed for this application"] := by
  constructor <;> rfl

/-- Claim C4, amended: the Windows and Linux backends wrap the native
error text and return it synchronously to the immediate caller, without
retrying; the macOS backend submits the request asynchronously, always
returns Ok(()) to its caller, and only logs a native error from the
completion handler. -/
theorem backend_error_propagation :
    (∀ (mgr : Nat) (id title body e : String) (url : Option String),
      windows_show_notification (some mgr) id title body url
          (Except.error e) =
        Except.error ("Failed to show Windows notification: " ++ e)) ∧
    (∀ (mgr : Nat) (id title body e : String) (url : Option String),
      linux_show_notification (some mgr) id title body url
          (Except.error e) =
        Except.error ("Failed to show Linux notification: " ++ e)) ∧
    (∀ (id title body : String) (url : Option String)
        (ne : Option String),
      (macos_show_notification id title body url ne).1 = Except.ok ()) ∧
    (∀ (id title body e : String) (url : Option String),
      (macos_show_notification id title body url (some e)).2 =
        ["❌ Failed to show macOS notification: " ++ e]) := by
  refine ⟨fun _ _ _ _ _ _ => rfl, fun _ _ _ _ _ _ => rfl,
    fun _ _ _ _ _ => rfl, fun _ _ _ _ _ => rfl⟩

/-- Claim C7, counterexample: when handle_click dispatches a click with a
callback registered, the callback Mutex guard created in the if-let
scrutinee is still held at the callback invocation, and a callback that
re-enters set_callback acquires that same lock and deadlocks. -/
theorem callback_lock_held_across_dispatch :
    locksHeldAtCallback (handle_click_lockTrace true) [] =
      some [LockId.callbackLock] ∧
    reentrantDeadlocks set_callback_lockTrace [LockId.callbackLock] = true := by
  decide

/-- Claim C7, amended: during the callback invocation handle_click holds
the callback-slot lock but not the metadata lock, so a callback that
re-enters the manager through get_metadata, store_metadata or show does
not deadlock, while one that calls set_callback does. -/
theorem metadata_lock_free_during_dispatch :
    locksHeldAtCallback (handle_click_lockTrace true) [] =
      some [LockId.callbackLock] ∧
    reentrantDeadlocks get_metadata_lockTrace [LockId.callbackLock] = false ∧
    reentrantDeadlocks store_metadata_lockTrace [LockId.callbackLock] = false ∧
    reentrantDeadlocks (show_notification_lockTrace true)
      [LockId.callbackLock] = false ∧
    reentrantDeadlocks (show_notification_lockTrace false)
      [LockId.callbackLock] = false ∧
    reentrantDeadlocks set_callback_lockTrace [LockId.callbackLock] = true := by
  decide

/-- Claim C8, counterexample: two distinct command invocations that observe
the same millisecond timestamp generate identical identifiers, so the
identifier list of such a run is not duplicate-free. -/
theorem same_millisecond_ids_collide :
    ¬ (commandIds [1730000000000, 1730000000000]).Nodup := by
  decide

/-- Claim C8, amended: each invocation generates the identifier
cushion-notif-<millis> from the millisecond timestamp it observes, so two
invocations produce distinct identifiers exactly when they observe
distinct timestamps; invocations within the same millisecond collide. -/
theorem id_fresh_iff_distinct_timestamp (t₁ t₂ : Int)
    (h₁ : t₁.natAbs ≤ 2 ^ 63) (h₂ : t₂.natAbs ≤ 2 ^ 63) :
    genNotificationId t₁ = genNotificationId t₂ ↔ t₁ = t₂ :=
  ⟨genNotificationId_inj h₁ h₂, fun h => by rw [h]⟩

/-- Claim C8, witness: the amended theorem evaluated at two concrete i64
timestamps. -/
theorem id_fresh_iff_distinct_timestamp_witness :
    genNotificationId 1730000000000 = genNotificationId 999 ↔
      (1730000000000 : Int) = 999 :=
  id_fresh_iff_distinct_timestamp 1730000000000 999 (by decide) (by decide)

/-- Claim C2: every dispatch handler registered at startup (lib.rs wires
exactly the default handler; setup_notification_click_handler is never
called) emits a deep-link event only for the click's stored URL and only
when it passes the allow-list; when the stored URL fails the check, no
deep-link event is emitted at all and, whenever the dispatcher reacts with
an open intent (the action is not a dismissal), the rejection is logged. -/
theorem registered_dispatch_validates
    (hw : Bool) (handler : NotificationClick → List Emitted)
    (hreg : handler ∈ registeredClickHandlers hw)
    (click : NotificationClick) (u : String) (hurl : click.url = some u) :
    (∀ v, Emitted.deepLink v ∈ handler click →
      v = u ∧ is_valid_notification_url v = true) ∧
    (is_valid_notification_url u = false →
      (∀ v, Emitted.deepLink v ∉ handler click) ∧
      (click.action ≠ ClickAction.dismiss →
        Emitted.log ("🚫 Rejected invalid notification URL: " ++ u) ∈
          handler click)) := by
  have hh : handler = defaultClickHandler hw := by
    simpa [registeredClickHandlers] using hreg
  subst hh
  unfold defaultClickHandler
  cases hact : click.action with
  | dismiss =>
    refine ⟨?_, ?_⟩
    · intro v hv
      simp at hv
    · intro _
      exact ⟨fun v hv => by simp at hv, fun hne => absurd rfl hne⟩
  | body =>
    rw [hurl]
    by_cases hv : is_valid_notification_url u = true
    · refine ⟨?_, ?_⟩
      · intro v hmem
        simp only [hv, if_true, List.mem_append] at hmem
        rcases hmem with hmem | hmem
        · simp at hmem
          exact ⟨hmem, hmem ▸ hv⟩
        · rcases hw <;> simp at hmem
      · intro hfalse
        rw [hv] at hfalse
        exact absurd hfalse (by simp)
    · have hv' : is_valid_notification_url u = false := by
        simpa using hv
      refine ⟨?_, ?_⟩
      · intro v hmem
        simp only [hv', Bool.false_eq_true, if_false, List.mem_append] at hmem
        rcases hmem with hmem | hmem
        · simp at hmem
        · rcases hw <;> simp at hmem
      · intro _
        refine ⟨?_, ?_⟩
        · intro v hmem
          simp only [hv', Bool.false_eq_true, if_false, List.mem_append] at hmem
          rcases hmem with hmem | hmem
          · simp at hmem
          · rcases hw <;> simp at hmem
        · intro _
          simp [hv']
  | button name =>
    rw [hurl]
    by_cases hv : is_valid_notification_url u = true
    · refine ⟨?_, ?_⟩
      · intro v hmem
        simp only [hv, if_true, List.mem_append] at hmem
        rcases hmem with hmem | hmem
        · simp at hmem
          exact ⟨hmem, hmem ▸ hv⟩
        · rcases hw <;> simp at hmem
      · intro hfalse
        rw [hv] at hfalse
        exact absurd hfalse (by simp)
    · have hv' : is_valid_notification_url u = false := by
        simpa using hv
      refine ⟨?_, ?_⟩
      · intro v hmem
        simp only [hv', Bool.false_eq_true, if_false, List.mem_append] at hmem
        rcases hmem with hmem | hmem
        · simp at hmem
        · rcases hw <;> simp at hmem
      · intro _
        refine ⟨?_, ?_⟩
        · intro v hmem
          simp only [hv', Bool.false_eq_true, if_false, List.mem_append] at hmem
          rcases hmem with hmem | hmem
          · simp at hmem
          · rcases hw <;> simp at hmem
        · intro _
          simp [hv']

/-- Claim C2, witness: the registered handler, on a body click whose
stored URL is https://evil.com/a, emits no deep-link event and logs the
rejection. -/
theorem registered_dispatch_validates_witness :
    Emitted.deepLink "https://evil.com/a" ∉
      defaultClickHandler true ⟨"n1", some "https://evil.com/a", ClickAction.body⟩ ∧
    Emitted.log ("🚫 Rejected invalid notification URL: " ++ "https://evil.com/a") ∈
      defaultClickHandler true ⟨"n1", some "https://evil.com/a", ClickAction.body⟩ := by
  have h := registered_dispatch_validates true (defaultClickHandler true)
    (by simp [registeredClickHandlers])
    ⟨"n1", some "https://evil.com/a", ClickAction.body⟩ "https://evil.com/a" rfl
  have h2 := h.2 (by decide)
  exact ⟨h2.1 "https://evil.com/a", h2.2 (by decide)⟩

/-- Claim C3: show_notification with a URL records the id-to-url binding
in the metadata map before issuing the backend render call (the operation
trace is the store followed by the render), whatever the backend outcome;
afterwards a lookup of the id resolves the URL, and a macOS click on the
id arriving after show returns carries url = Some(u). -/
theorem show_stores_metadata_before_render
    (m : NotificationManager) (id title body u : String)
    (r : Except String Unit) :
    NotificationManager.get_metadata
        (m.show_notification id title body (some u) r).1 id = some u ∧
    (m.show_notification id title body (some u) r).2.2 =
      [ManagerOp.storeMetadata id u, ManagerOp.backendRender id title body] ∧
    (did_receive_response (some (m.show_notification id title body (some u) r).1)
        id "com.apple.UNNotificationDefaultActionIdentifier").1.url = some u := by
  refine ⟨?_, rfl, ?_⟩
  · simp [NotificationManager.show_notification,
      NotificationManager.store_metadata, NotificationManager.get_metadata,
      List.find?]
  · simp [did_receive_response, NotificationManager.show_notification,
      NotificationManager.store_metadata, NotificationManager.get_metadata,
      List.find?]

/-- Claim C5: with the default handler registered, a click whose action is
a dismissal never makes the manager's dispatch emit a deep-link event,
whatever URL is stored for the notification. -/
theorem dismiss_emits_no_navigation
    (hw : Bool) (m : NotificationManager)
    (hcb : m.callback = some (defaultClickHandler hw))
    (click : NotificationClick) (hact : click.action = ClickAction.dismiss) :
    ∀ v, Emitted.deepLink v ∉ m.handle_click click := by
  intro v
  simp [NotificationManager.handle_click, hcb, defaultClickHandler, hact]

/-- Claim C5, witness: a dismissal click carrying a stored valid URL,
dispatched through the manager built by notifications::setup, emits no
deep-link event. -/
theorem dismiss_emits_no_navigation_witness :
    Emitted.deepLink "cushion://inbox" ∉
      (notifications_setup true).handle_click
        ⟨"n1", some "cushion://inbox", ClickAction.dismiss⟩ :=
  dismiss_emits_no_navigation true (notifications_setup true) rfl
    ⟨"n1", some "cushion://inbox", ClickAction.dismiss⟩ rfl "cushion://inbox"

/-- Claim C6: a macOS click reported for an id absent from the metadata
map resolves url to none, still dispatches a click record with url = none
through the registered callback, and the default dispatcher treats it as
open-app-without-navigation: no deep-link event, only the three window
operations when the main window exists. -/
theorem unknown_id_click_dispatches_none
    (m : NotificationManager) (hw : Bool)
    (hcb : m.callback = some (defaultClickHandler hw))
    (id : String) (hid : m.get_metadata id = none) :
    (did_receive_response (some m) id
        "com.apple.UNNotificationDefaultActionIdentifier").1 =
      ⟨id, none, ClickAction.body⟩ ∧
    (did_receive_response (some m) id
        "com.apple.UNNotificationDefaultActionIdentifier").2 =
      defaultClickHandler hw ⟨id, none, ClickAction.body⟩ ∧
    (∀ v, Emitted.deepLink v ∉
      (did_receive_response (some m) id
        "com.apple.UNNotificationDefaultActionIdentifier").2) ∧
    (hw = true →
      (did_receive_response (some m) id
        "com.apple.UNNotificationDefaultActionIdentifier").2 =
        [Emitted.windowShow, Emitted.windowFocus, Emitted.windowUnminimize]) := by
  have hclick : (did_receive_response (some m) id
      "com.apple.UNNotificationDefaultActionIdentifier").1 =
      ⟨id, none, ClickAction.body⟩ := by
    simp [did_receive_response, actionFromIdentifier, hid]
  have hdisp : (did_receive_response (some m) id
      "com.apple.UNNotificationDefaultActionIdentifier").2 =
      defaultClickHandler hw ⟨id, none, ClickAction.body⟩ := by
    simp [did_receive_response, actionFromIdentifier, hid,
      NotificationManager.handle_click, hcb]
  refine ⟨hclick, hdisp, ?_, ?_⟩
  · intro v
    rw [hdisp]
    cases hw <;> simp [defaultClickHandler]
  · intro hwt
    rw [hdisp, hwt]
    simp [defaultClickHandler]

/-- Claim C6, witness: a click for an id never shown, against the manager
built by notifications::setup, dispatches url = none and only the window
operations. -/
theorem unknown_id_click_dispatches_none_witness :
    (did_receive_response (some (notifications_setup true)) "ghost"
        "com.apple.UNNotificationDefaultActionIdentifier").1 =
      ⟨"ghost", none, ClickAction.body⟩ ∧
    (did_receive_response (some (notifications_setup true)) "ghost"
        "com.apple.UNNotificationDefaultActionIdentifier").2 =
      defaultClickHandler true ⟨"ghost", none, ClickAction.body⟩ ∧
    (∀ v, Emitted.deepLink v ∉
      (did_receive_response (some (notifications_setup true)) "ghost"
        "com.apple.UNNotificationDefaultActionIdentifier").2) ∧
    (true = true →
      (did_receive_response (some (notifications_setup true)) "ghost"
        "com.apple.UNNotificationDefaultActionIdentifier").2 =
        [Emitted.windowShow, Emitted.windowFocus, Emitted.windowUnminimize]) :=
  unknown_id_click_dispatches_none (notifications_setup true) true rfl "ghost" rfl

/-- A run containing no init call leaves the slot state unchanged and
every get observes the starting slot value. -/
theorem runSlot_no_init (p : Platform) (ops : List SlotOp) :
    ∀ st : GlobalSlot × List String, SlotOp.opInit ∉ ops →
      (runSlot p ops st).1 = st ∧
      ∀ r ∈ (runSlot p ops st).2, r = NotificationManager.get st.1 := by
  induction ops with
  | nil => intro st _; simp [runSlot]
  | cons op rest ih =>
    intro st h
    cases op with
    | opInit => exact absurd (by simp) h
    | opGet =>
      have hrest : SlotOp.opInit ∉ rest := fun hn => h (by simp [hn])
      have := ih st hrest
      simp only [runSlot]
      refine ⟨this.1, ?_⟩
      intro r hr
      simp only [List.mem_cons] at hr
      rcases hr with hr | hr
      · exact hr
      · exact this.2 r hr

/-- Claim C9: before any init call, every get against the slot returns
none — all gets of an init-free run observe none — and the Windows and
Linux backend entry points, seeing the uninitialized slot, fail with the
not-initialized error instead of panicking (every embedded operation is a
total function). -/
theorem get_before_init_is_none (p : Platform) (ops : List SlotOp)
    (h : SlotOp.opInit ∉ ops) :
    (∀ r ∈ (runSlot p ops (GlobalSlot.initial, [])).2, r = none) ∧
    (∀ (id title body : String) (url : Option String)
        (nr : Except String Unit),
      windows_show_notification (NotificationManager.get GlobalSlot.initial)
          id title body url nr =
        Except.error "Notification manager not initialized") ∧
    (∀ (id title body : String) (url : Option String)
        (nr : Except String Unit),
      linux_show_notification (NotificationManager.get GlobalSlot.initial)
          id title body url nr =
        Except.error "Notification manager not initialized") := by
  refine ⟨?_, fun _ _ _ _ _ => rfl, fun _ _ _ _ _ => rfl⟩
  intro r hr
  exact (runSlot_no_init p ops (GlobalSlot.initial, []) h).2 r hr

/-- Claim C9, witness: two consecutive gets before init both return none,
and the Windows backend reports the not-initialized error. -/
theorem get_before_init_is_none_witness :
    (∀ r ∈ (runSlot Platform.macos [SlotOp.opGet, SlotOp.opGet]
        (GlobalSlot.initial, [])).2, r = none) ∧
    (∀ (id title body : String) (url : Option String)
        (nr : Except String Unit),
      windows_show_notification (NotificationManager.get GlobalSlot.initial)
          id title body url nr =
        Except.error "Notification manager not initialized") ∧
    (∀ (id title body : String) (url : Option String)
        (nr : Except String Unit),
      linux_show_notification (NotificationManager.get GlobalSlot.initial)
          id title body url nr =
        Except.error "Notification manager not initialized") :=
  get_before_init_is_none Platform.macos [SlotOp.opGet, SlotOp.opGet] (by decide)

/-- Claim C10, counterexample: on the macOS target a second init call does
panic.  The first init registers the delegate class; the second init's
ClassDecl::new for the already-registered class returns None and the
source's expect panics (modelled as the error value), contradicting "the
call does not panic". -/
theorem second_init_panics_on_macos :
    NotificationManager.init Platform.macos GlobalSlot.initial [] =
      Except.ok (⟨some 0, 1⟩, 0, ["CushionNotificationDelegate"]) ∧
    NotificationManager.init Platform.macos ⟨some 0, 1⟩
        ["CushionNotificationDelegate"] =
      Except.error "Failed to create CushionNotificationDelegate class" :=
  ⟨rfl, rfl⟩

/-- Claim C10, amended: on the Windows and Linux targets a second init
call completes without panicking; whenever an init call on an
already-initialized slot completes, the slot keeps the first manager:
get() still returns the first instance, the call returns the freshly
allocated instance, and that instance is never installed in the slot.  On
the macOS target a second init call panics while re-registering the
delegate class (before reaching the slot), so the slot likewise keeps the
first manager. -/
theorem second_init_keeps_first_manager (p : Platform) (g : GlobalSlot)
    (classes : List String) (m : Nat)
    (hm : NotificationManager.get g = some m) (hfresh : m < g.next) :
    ((p = Platform.windows ∨ p = Platform.linux) →
      ∃ out, NotificationManager.init p g classes = Except.ok out) ∧
    (∀ out, NotificationManager.init p g classes = Except.ok out →
      NotificationManager.get out.1 = some m ∧
      out.2.1 = g.next ∧ out.2.1 ≠ m ∧
      NotificationManager.get out.1 ≠ some out.2.1) ∧
    (p = Platform.macos → "CushionNotificationDelegate" ∈ classes →
      NotificationManager.init p g classes =
        Except.error "Failed to create CushionNotificationDelegate class") := by
  have hslot : g.slot = some m := hm
  have hset : onceLockSet ⟨g.slot, g.next + 1⟩ g.next =
      ⟨some m, g.next + 1⟩ := by
    simp [onceLockSet, hslot]
  refine ⟨?_, ?_, ?_⟩
  · rintro (hp | hp) <;> subst hp
    · exact ⟨(onceLockSet ⟨g.slot, g.next + 1⟩ g.next, g.next, classes), rfl⟩
    · exact ⟨(onceLockSet ⟨g.slot, g.next + 1⟩ g.next, g.next, classes), rfl⟩
  · intro out hout
    cases p with
    | macos =>
      by_cases hc : "CushionNotificationDelegate" ∈ classes
      · simp [NotificationManager.init, platform_setup, hc] at hout
      · have hval : NotificationManager.init Platform.macos g classes =
            Except.ok (⟨some m, g.next + 1⟩, g.next,
              "CushionNotificationDelegate" :: classes) := by
          simp [NotificationManager.init, platform_setup, hc, hset]
        rw [hval] at hout
        injection hout with h
        subst h
        refine ⟨rfl, rfl, by show g.next ≠ m; omega, ?_⟩
        show ¬ some m = some g.next
        simp only [Option.some.injEq]
        omega
    | windows =>
      have hval : NotificationManager.init Platform.windows g classes =
          Except.ok (⟨some m, g.next + 1⟩, g.next, classes) := by
        simp [NotificationManager.init, platform_setup, hset]
      rw [hval] at hout
      injection hout with h
      subst h
      refine ⟨rfl, rfl, by show g.next ≠ m; omega, ?_⟩
      show ¬ some m = some g.next
      simp only [Option.some.injEq]
      omega
    | linux =>
      have hval : NotificationManager.init Platform.linux g classes =
          Except.ok (⟨some m, g.next + 1⟩, g.next, classes) := by
        simp [NotificationManager.init, platform_setup, hset]
      rw [hval] at hout
      injection hout with h
      subst h
      refine ⟨rfl, rfl, by show g.next ≠ m; omega, ?_⟩
      show ¬ some m = some g.next
      simp only [Option.some.injEq]
      omega
  · intro hp hc
    subst hp
    simp [NotificationManager.init, platform_setup, hc]

/-- Claim C10, witness: the amended theorem at the state reached after one
init (slot holds instance 0, next fresh instance 1), on the Windows
target. -/
theorem second_init_keeps_first_manager_witness :
    ((Platform.windows = Platform.windows ∨
        Platform.windows = Platform.linux) →
      ∃ out, NotificationManager.init Platform.windows ⟨some 0, 1⟩ [] =
        Except.ok out) ∧
    (∀ out, NotificationManager.init Platform.windows ⟨some 0, 1⟩ [] =
        Except.ok out →
      NotificationManager.get out.1 = some 0 ∧
      out.2.1 = 1 ∧ out.2.1 ≠ 0 ∧
      NotificationManager.get out.1 ≠ some out.2.1) ∧
    (Platform.windows = Platform.macos →
      "CushionNotificationDelegate" ∈ ([] : List String) →
      NotificationManager.init Platform.windows ⟨some 0, 1⟩ [] =
        Except.error "Failed to create CushionNotificationDelegate class") :=
  second_init_keeps_first_manager Platform.windows ⟨some 0, 1⟩ [] 0 rfl
    (by decide)

end Cushion
